import Mathlib

/- Shallow embedding of the exclude_entry_compiler program (src/main.rs).

The program compiles a list of block-list entries (domains or URL paths,
each tagged with a match method) into rule text for one of two targets
(uBlackList or uBlock Origin), guided by a set of feature flags, and
writes the result to an output file.

Pure parts of the `compile` function are embedded as Lean functions on the
data model; the effectful shell (reading the input file, parsing,
opening/truncating and writing the output file, the hard process exit for
conflicting Google flags) is embedded as an explicit state-passing
function over a small file-system state together with a trace of which
effects occurred. Machine strings are Lean `String`s; JSON
deserialization via serde is embedded as a decoder over a JSON value
tree. -/

namespace ExcludeEntry

/-- Embeds `MatchMethod` from src/main.rs: one variant, `Literal`. -/
inductive MatchMethod
  | Literal
deriving DecidableEq

/-- Embeds `Entry` from src/main.rs: a domain or a path, each with a match
method. -/
inductive Entry
  | Domain (match_method : MatchMethod) (domain : String)
  | Path (match_method : MatchMethod) (path : String)
deriving DecidableEq

/-- Embeds `HeaderAttribute` from src/main.rs: a key/value pair of
strings. -/
structure HeaderAttribute where
  key : String
  value : String
deriving DecidableEq

/-- Embeds `CompileTarget` from src/main.rs. -/
inductive CompileTarget
  | UBlackList
  | UBlockOrigin
deriving DecidableEq

/-- Embeds `GenerateTargetPlatform` from src/main.rs. `GoogleSearchPfx`
embeds the source's Google-search variant for URL head matching (operator
`^=`); `GoogleSearchFuzzy` keeps its source name (operator `*=`). -/
inductive GenerateTargetPlatform
  | Base
  | GoogleSearchPfx
  | GoogleSearchFuzzy
deriving DecidableEq

/-- Embeds `SyntaxCheckError` from src/main.rs; the payloads of the
`serde_json::Error` and `std::io::Error` variants are abstracted to their
message strings. -/
inductive SyntaxCheckError
  | Deserialize (msg : String)
  | Io (msg : String)
deriving DecidableEq

/-- Embeds `CompileError` from src/main.rs, with payloads abstracted as
message strings. -/
inductive CompileError
  | Deserialize (msg : String)
  | Io (msg : String)
  | UnsupportedFeatureSet
  | Syntax (e : SyntaxCheckError)
deriving DecidableEq

/-- Embeds Rust `str::split_once` on a character, over the character list:
split at the first occurrence of `c`, returning the parts before and
after it, or `none` when `c` does not occur. -/
def splitOnceList (c : Char) : List Char → Option (List Char × List Char)
  | [] => none
  | x :: xs =>
    if x = c then some ([], xs)
    else (splitOnceList c xs).map fun p => (x :: p.1, p.2)

/-- Embeds `HeaderAttribute::from_str` from src/main.rs:
`s.split_once('=')` then build the attribute; `none` embeds `Err(())`. -/
def HeaderAttribute.fromStr (s : String) : Option HeaderAttribute :=
  (splitOnceList '=' s.data).map fun p => { key := ⟨p.1⟩, value := ⟨p.2⟩ }

/-- Embeds Rust `collect::<String>()` over an iterator of strings:
in-order concatenation. -/
def collectString : List String → String
  | [] => ""
  | s :: rest => s ++ collectString rest

/-- Embeds Rust `Vec::<String>::join("\n")`: the elements interleaved with
a single newline, no leading or trailing separator. -/
def joinNewline : List String → String
  | [] => ""
  | [s] => s
  | s :: rest => s ++ "\n" ++ joinNewline rest

/-- Embeds the comment marker chosen by `compile` in src/main.rs:
`"#"` for uBlackList, `"!"` for uBlock Origin. -/
def comment : CompileTarget → String
  | CompileTarget.UBlackList => "#"
  | CompileTarget.UBlockOrigin => "!"

/-- Embeds one header line as built by `compile` in src/main.rs:
comment marker, space, key, `": "`, value, newline. -/
def headerLine (comment_marker : String) (x : HeaderAttribute) : String :=
  comment_marker ++ " " ++ x.key ++ ": " ++ x.value ++ "\n"

/-- Embeds the header block of `compile` in src/main.rs: one line per
attribute, in input order, collected into one string. -/
def header (target : CompileTarget) (header_attributes : List HeaderAttribute) : String :=
  collectString (header_attributes.map (headerLine (comment target)))

/-- Embeds the `entry_serialize` string of `compile` in src/main.rs (the
Base block): one line per entry, in input order, per the target's
template. -/
def entrySerialize (target : CompileTarget) (list : List Entry) : String :=
  match target with
  | CompileTarget.UBlackList =>
    collectString (list.map fun x =>
      match x with
      | Entry.Domain match_method domain =>
        match match_method with
        | MatchMethod.Literal => "*://" ++ domain ++ "/*\n"
      | Entry.Path match_method path =>
        match match_method with
        | MatchMethod.Literal => "*://" ++ path ++ "\n")
  | CompileTarget.UBlockOrigin =>
    collectString (list.map fun x =>
      match x with
      | Entry.Domain match_method out
      | Entry.Path match_method out =>
        match match_method with
        | MatchMethod.Literal => "||" ++ out ++ "^\n")

/-- Embeds the list of Google block rule lines built by `compile` in
src/main.rs: entries are filtered to those with `Literal` match method,
and each surviving payload contributes two selector lines, using operator
`"^="` when the GoogleSearchPfx flag was chosen and `"*="` otherwise. -/
def googleLines (google_search_pfx : Bool) (list : List Entry) : List String :=
  let href_operator := if google_search_pfx then "^=" else "*="
  (list.filterMap fun x =>
    match x with
    | Entry.Domain match_method domain =>
      if match_method = MatchMethod.Literal then some domain else none
    | Entry.Path match_method path =>
      if match_method = MatchMethod.Literal then some path else none).flatMap
    fun href_spec =>
      ["www.google.*##.g:has(a[href" ++ href_operator ++ "\"" ++ href_spec ++ "\")",
       "www.google.*##.a[href" ++ href_operator ++ "\"" ++ href_spec ++ "\"]:upward(1)"]

/-- Embeds the `cp` string of `compile` in src/main.rs: the Google rule
lines joined with `"\n"`. -/
def googleBlock (google_search_pfx : Bool) (list : List Entry) : String :=
  joinNewline (googleLines google_search_pfx list)

/-- Embeds the `outputs.join("")` assembly of `compile` in src/main.rs:
the header block, then the Base block when the `Base` flag is present,
then the Google block when a Google flag is present, concatenated with no
separator. -/
def assembleText (list : List Entry) (target : CompileTarget)
    (feature_flags : List GenerateTargetPlatform)
    (header_attributes : List HeaderAttribute) : String :=
  let google_search_pfx := feature_flags.contains GenerateTargetPlatform.GoogleSearchPfx
  let google_search_fuzzy := feature_flags.contains GenerateTargetPlatform.GoogleSearchFuzzy
  let google := google_search_pfx || google_search_fuzzy
  collectString
    ([header target header_attributes]
      ++ (if feature_flags.contains GenerateTargetPlatform.Base
          then [entrySerialize target list] else [])
      ++ (if google then [googleBlock google_search_pfx list] else []))

/-- Result of the pure part of `compile`: the text that would be written,
or a typed `CompileError`, or the hard `exit(1)` taken when both Google
flags are present. -/
inductive CompileResultT
  | ok (text : String)
  | err (e : CompileError)
  | usageExit
deriving DecidableEq

/-- Embeds the pure content of `compile` from src/main.rs, given an
already parsed entry list: the early returns in source order (empty flag
set, unsupported feature set, conflicting Google flags), then the
assembled output text. -/
def compile (list : List Entry) (target : CompileTarget)
    (feature_flags : List GenerateTargetPlatform)
    (header_attributes : List HeaderAttribute) : CompileResultT :=
  if feature_flags.isEmpty then CompileResultT.ok ""
  else if !(target == CompileTarget.UBlockOrigin)
      && feature_flags.contains GenerateTargetPlatform.GoogleSearchPfx then
    CompileResultT.err CompileError.UnsupportedFeatureSet
  else
    let google_search_pfx := feature_flags.contains GenerateTargetPlatform.GoogleSearchPfx
    let google_search_fuzzy := feature_flags.contains GenerateTargetPlatform.GoogleSearchFuzzy
    if google_search_pfx && google_search_fuzzy then CompileResultT.usageExit
    else CompileResultT.ok (assembleText list target feature_flags header_attributes)

/-- State of the two files `compile` touches: the input file as the result
of reading it to a string (`Except` error message when missing or
unreadable), and the current content of the output file (`none` when the
file does not exist). -/
structure FsState where
  input : Except String String
  output : Option String

/-- How the process run ended: a normal return carrying the `Result`, or a
`std::process::exit` with the given code. -/
inductive RunResult
  | normal (r : Except CompileError Unit)
  | exited (code : Nat)

/-- Which effects on the two files occurred during a run of `compile`. -/
structure Trace where
  readInput : Bool
  openedOutput : Bool

/-- Result of running effectful `compile`: outcome, final file-system
state, and effect trace. -/
structure RunState where
  result : RunResult
  fs : FsState
  trace : Trace

/-- Embeds `syntax_check` from src/main.rs, over the file-system state:
read the input file to a string (an I/O failure becomes
`SyntaxCheckError::Io`), then parse it (a failure becomes
`SyntaxCheckError::Deserialize`). The JSON parser is a parameter,
abstracting `serde_json::from_str`. -/
def checkSyntax (parse : String → Except String (List Entry))
    (fs : FsState) : Except SyntaxCheckError (List Entry) :=
  match fs.input with
  | Except.error e => Except.error (SyntaxCheckError.Io e)
  | Except.ok json =>
    match parse json with
    | Except.error e => Except.error (SyntaxCheckError.Deserialize e)
    | Except.ok x => Except.ok x

/-- Embeds the effectful `compile` from src/main.rs, in source order: the
empty-flag short-circuit and the unsupported-feature check return before
any file is touched; the conflicting-Google-flags check exits the process
before any file is touched; then the input file is read and parsed
(`syntax_check`), the output file is opened with truncate-or-create
semantics, and the assembled text is written to it. -/
def compileRun (parse : String → Except String (List Entry)) (fs : FsState)
    (target : CompileTarget) (feature_flags : List GenerateTargetPlatform)
    (header_attributes : List HeaderAttribute) : RunState :=
  if feature_flags.isEmpty then
    ⟨RunResult.normal (Except.ok ()), fs, ⟨false, false⟩⟩
  else if !(target == CompileTarget.UBlockOrigin)
      && feature_flags.contains GenerateTargetPlatform.GoogleSearchPfx then
    ⟨RunResult.normal (Except.error CompileError.UnsupportedFeatureSet), fs, ⟨false, false⟩⟩
  else if feature_flags.contains GenerateTargetPlatform.GoogleSearchPfx
      && feature_flags.contains GenerateTargetPlatform.GoogleSearchFuzzy then
    ⟨RunResult.exited 1, fs, ⟨false, false⟩⟩
  else
    match checkSyntax parse fs with
    | Except.error e =>
      ⟨RunResult.normal (Except.error (CompileError.Syntax e)), fs, ⟨true, false⟩⟩
    | Except.ok list =>
      ⟨RunResult.normal (Except.ok ()),
        { fs with output := some (assembleText list target feature_flags header_attributes) },
        ⟨true, true⟩⟩

/-- JSON value tree, the shape `serde_json` parses source text into. -/
inductive Json
  | str (s : String)
  | num (n : Int)
  | bool (b : Bool)
  | null
  | arr (xs : List Json)
  | obj (fields : List (String × Json))

/-- Field lookup in a JSON object, first occurrence. -/
def Json.getField (key : String) : Json → Option Json
  | Json.obj fields => fields.lookup key
  | _ => none

/-- Embeds deserialization of `MatchMethod` per its strum/serde derives in
src/main.rs: the string `"literal"` and nothing else. -/
def MatchMethod.fromJson : Json → Option MatchMethod
  | Json.str s => if s = "literal" then some MatchMethod.Literal else none
  | _ => none

/-- Embeds deserialization of `Entry` per its serde derives in
src/main.rs: internally tagged by field `"type"` (`"domain"` or
`"path"`), with field `"match"` for the match method and field `"domain"`
or `"path"` for the payload string. -/
def Entry.fromJson (j : Json) : Option Entry :=
  match Json.getField "type" j with
  | some (Json.str t) =>
    if t = "domain" then
      match Json.getField "match" j, Json.getField "domain" j with
      | some m, some (Json.str d) =>
        (MatchMethod.fromJson m).map fun mm => Entry.Domain mm d
      | _, _ => none
    else if t = "path" then
      match Json.getField "match" j, Json.getField "path" j with
      | some m, some (Json.str p) =>
        (MatchMethod.fromJson m).map fun mm => Entry.Path mm p
      | _, _ => none
    else none
  | _ => none

/-- Embeds deserialization of `EntryList` per its serde derive in
src/main.rs: a JSON array each of whose elements deserializes as an
`Entry`. -/
def EntryList.fromJson : Json → Option (List Entry)
  | Json.arr xs => xs.mapM Entry.fromJson
  | _ => none

/-- The payload string of an entry: the domain of a `Domain` entry, the
path of a `Path` entry. -/
def Entry.payload : Entry → String
  | Entry.Domain _ domain => domain
  | Entry.Path _ path => path

/-- Helper: `List.contains` agrees with membership. -/
theorem contains_true_iff {α : Type} [DecidableEq α] (l : List α) (a : α) :
    l.contains a = true ↔ a ∈ l := by
  simp [List.contains, List.elem_iff]

/-- Helper: `collectString` is a homomorphism for list append. -/
theorem collectString_append (l1 l2 : List String) :
    collectString (l1 ++ l2) = collectString l1 ++ collectString l2 := by
  induction l1 with
  | nil => simp [collectString]
  | cons s rest ih => simp [collectString, ih, String.append_assoc]

/-- Helper: the Base block for a cons splits off the head entry's line. -/
theorem entrySerialize_cons (target : CompileTarget) (e : Entry) (rest : List Entry) :
    entrySerialize target (e :: rest)
      = entrySerialize target [e] ++ entrySerialize target rest := by
  cases target <;> cases e <;>
    simp [entrySerialize, collectString, String.append_empty, String.append_assoc]

/-- Helper: the Base block is the in-order concatenation of the per-entry
singleton blocks. -/
theorem entrySerialize_eq_collect (target : CompileTarget) (list : List Entry) :
    entrySerialize target list
      = collectString (list.map fun e => entrySerialize target [e]) := by
  induction list with
  | nil => cases target <;> rfl
  | cons e rest ih => rw [entrySerialize_cons, ih]; rfl

/-- Helper: when a nonempty flag set compiles successfully, the resulting
text is the assembled output. -/
theorem compile_ok_eq (list : List Entry) (target : CompileTarget)
    (feature_flags : List GenerateTargetPlatform)
    (header_attributes : List HeaderAttribute) (t : String)
    (hne : feature_flags ≠ [])
    (hok : compile list target feature_flags header_attributes = CompileResultT.ok t) :
    t = assembleText list target feature_flags header_attributes := by
  simp only [compile] at hok
  split at hok
  · exact absurd (List.isEmpty_iff.mp (by assumption)) hne
  · split at hok
    · simp at hok
    · split at hok
      · simp at hok
      · exact (CompileResultT.ok.inj hok).symm

/-- Helper: the assembled output decomposes into header, optional Base
block, optional Google block, in that order. -/
theorem assembleText_eq (list : List Entry) (target : CompileTarget)
    (feature_flags : List GenerateTargetPlatform)
    (header_attributes : List HeaderAttribute) :
    assembleText list target feature_flags header_attributes
      = header target header_attributes
        ++ ((if feature_flags.contains GenerateTargetPlatform.Base = true
              then entrySerialize target list else "")
          ++ (if (feature_flags.contains GenerateTargetPlatform.GoogleSearchPfx
                || feature_flags.contains GenerateTargetPlatform.GoogleSearchFuzzy) = true
              then googleBlock
                (feature_flags.contains GenerateTargetPlatform.GoogleSearchPfx) list
              else "")) := by
  by_cases hb : GenerateTargetPlatform.Base ∈ feature_flags <;>
  by_cases hp : GenerateTargetPlatform.GoogleSearchPfx ∈ feature_flags <;>
  by_cases hf : GenerateTargetPlatform.GoogleSearchFuzzy ∈ feature_flags <;>
    simp [assembleText, hb, hp, hf, collectString, collectString_append,
      String.append_empty, String.append_assoc]

/-- C1: with the Base flag, `compile` emits the header block followed by
the Base block; the Base block is one line per entry in input order, the
line being `*://{domain}/*` for a uBlackList domain entry, `*://{path}`
for a uBlackList path entry, and `||{value}^` for either uBlock Origin
entry kind, each line nonempty and terminated by a single newline (so no
blank lines appear between rules). -/
theorem base_rule_emission (list : List Entry) (target : CompileTarget)
    (header_attributes : List HeaderAttribute) :
    compile list target [GenerateTargetPlatform.Base] header_attributes
        = CompileResultT.ok (header target header_attributes ++ entrySerialize target list) ∧
    entrySerialize target list
        = collectString (list.map fun e => entrySerialize target [e]) ∧
    (∀ d, entrySerialize CompileTarget.UBlackList [Entry.Domain MatchMethod.Literal d]
        = "*://" ++ d ++ "/*" ++ "\n") ∧
    (∀ p, entrySerialize CompileTarget.UBlackList [Entry.Path MatchMethod.Literal p]
        = "*://" ++ p ++ "\n") ∧
    (∀ v, entrySerialize CompileTarget.UBlockOrigin [Entry.Domain MatchMethod.Literal v]
        = "||" ++ v ++ "^" ++ "\n") ∧
    (∀ v, entrySerialize CompileTarget.UBlockOrigin [Entry.Path MatchMethod.Literal v]
        = "||" ++ v ++ "^" ++ "\n") ∧
    (∀ e, ∃ line, entrySerialize target [e] = line ++ "\n" ∧ line ≠ "") := by
  refine ⟨?_, entrySerialize_eq_collect target list, ?_, ?_, ?_, ?_, ?_⟩
  · simp [compile, assembleText, collectString, String.append_empty]
  · intro d
    simp [entrySerialize, collectString, String.append_empty, String.append_assoc]
  · intro p
    simp [entrySerialize, collectString, String.append_empty]
  · intro v
    simp [entrySerialize, collectString, String.append_empty, String.append_assoc]
  · intro v
    simp [entrySerialize, collectString, String.append_empty, String.append_assoc]
  · intro e
    cases target <;> cases e <;> rename_i mm payload <;> cases mm
    · exact ⟨"*://" ++ payload ++ "/*", by
        simp [entrySerialize, collectString, String.append_empty, String.append_assoc], by
        intro h
        have h2 := congrArg String.length h
        simp [String.length_append] at h2
        exact absurd h2.2 (by decide)⟩
    · exact ⟨"*://" ++ payload, by
        simp [entrySerialize, collectString, String.append_empty, String.append_assoc], by
        intro h
        have h2 := congrArg String.length h
        simp [String.length_append] at h2
        exact absurd h2.1 (by decide)⟩
    · exact ⟨"||" ++ payload ++ "^", by
        simp [entrySerialize, collectString, String.append_empty, String.append_assoc], by
        intro h
        have h2 := congrArg String.length h
        simp [String.length_append] at h2
        exact absurd h2.2 (by decide)⟩
    · exact ⟨"||" ++ payload ++ "^", by
        simp [entrySerialize, collectString, String.append_empty, String.append_assoc], by
        intro h
        have h2 := congrArg String.length h
        simp [String.length_append] at h2
        exact absurd h2.2 (by decide)⟩

/-- C2: each Literal entry (domain or path alike) contributes exactly two
Google rule lines, in input order, with operator `^=` when the
GoogleSearchPfx flag was requested and `*=` when GoogleSearchFuzzy was;
the lines are joined by a single newline with no leading or trailing
separator; and for uBlock Origin with one entry Domain Literal "x.com"
and the fuzzy flag, `compile` yields exactly the two expected lines. -/
theorem google_rule_emission (rest : List Entry) (p : String) :
    googleLines true (Entry.Domain MatchMethod.Literal p :: rest)
      = ("www.google.*##.g:has(a[href" ++ "^=" ++ "\"" ++ p ++ "\")")
        :: ("www.google.*##.a[href" ++ "^=" ++ "\"" ++ p ++ "\"]:upward(1)")
        :: googleLines true rest ∧
    googleLines false (Entry.Domain MatchMethod.Literal p :: rest)
      = ("www.google.*##.g:has(a[href" ++ "*=" ++ "\"" ++ p ++ "\")")
        :: ("www.google.*##.a[href" ++ "*=" ++ "\"" ++ p ++ "\"]:upward(1)")
        :: googleLines false rest ∧
    googleLines true (Entry.Path MatchMethod.Literal p :: rest)
      = ("www.google.*##.g:has(a[href" ++ "^=" ++ "\"" ++ p ++ "\")")
        :: ("www.google.*##.a[href" ++ "^=" ++ "\"" ++ p ++ "\"]:upward(1)")
        :: googleLines true rest ∧
    googleLines false (Entry.Path MatchMethod.Literal p :: rest)
      = ("www.google.*##.g:has(a[href" ++ "*=" ++ "\"" ++ p ++ "\")")
        :: ("www.google.*##.a[href" ++ "*=" ++ "\"" ++ p ++ "\"]:upward(1)")
        :: googleLines false rest ∧
    joinNewline [] = "" ∧
    (∀ s, joinNewline [s] = s) ∧
    (∀ s1 s2 ls, joinNewline (s1 :: s2 :: ls) = s1 ++ "\n" ++ joinNewline (s2 :: ls)) ∧
    compile [Entry.Domain MatchMethod.Literal "x.com"] CompileTarget.UBlockOrigin
        [GenerateTargetPlatform.GoogleSearchFuzzy] []
      = CompileResultT.ok ("www.google.*##.g:has(a[href*=\"x.com\")" ++ "\n"
          ++ "www.google.*##.a[href*=\"x.com\"]:upward(1)") ∧
    compile [Entry.Domain MatchMethod.Literal "x.com"] CompileTarget.UBlockOrigin
        [GenerateTargetPlatform.GoogleSearchPfx] []
      = CompileResultT.ok ("www.google.*##.g:has(a[href^=\"x.com\")" ++ "\n"
          ++ "www.google.*##.a[href^=\"x.com\"]:upward(1)") := by
  refine ⟨?_, ?_, ?_, ?_, rfl, fun s => rfl, fun s1 s2 ls => rfl, by decide, by decide⟩ <;>
    simp [googleLines]

/-- C3: compiling with a flag set containing the GoogleSearchPfx flag and
any target other than uBlock Origin fails with the typed
`UnsupportedFeatureSet` error, for every entry list and header set. -/
theorem unsupported_feature_target (list : List Entry) (target : CompileTarget)
    (feature_flags : List GenerateTargetPlatform)
    (header_attributes : List HeaderAttribute)
    (htarget : target ≠ CompileTarget.UBlockOrigin)
    (hmem : GenerateTargetPlatform.GoogleSearchPfx ∈ feature_flags) :
    compile list target feature_flags header_attributes
      = CompileResultT.err CompileError.UnsupportedFeatureSet := by
  have hne : feature_flags.isEmpty = false := by
    simp [List.isEmpty_eq_false]
    intro h
    rw [h] at hmem
    cases hmem
  have hc : feature_flags.contains GenerateTargetPlatform.GoogleSearchPfx = true :=
    (contains_true_iff _ _).mpr hmem
  simp [compile, hne, hc, htarget, hmem]

/-- Witness for C3 at a concrete input. -/
theorem unsupported_feature_target_witness :
    compile [] CompileTarget.UBlackList [GenerateTargetPlatform.GoogleSearchPfx] []
      = CompileResultT.err CompileError.UnsupportedFeatureSet :=
  unsupported_feature_target [] CompileTarget.UBlackList
    [GenerateTargetPlatform.GoogleSearchPfx] [] (by decide) (by decide)

/-- C4 counterexample: with both Google flags and target uBlackList, the
unsupported-feature check fires first, so `compile` returns the typed
`UnsupportedFeatureSet` error rather than the process-terminating usage
conflict — the claim's universal statement fails at this input. -/
theorem google_flags_conflict_counterexample :
    compile [] CompileTarget.UBlackList
        [GenerateTargetPlatform.GoogleSearchPfx, GenerateTargetPlatform.GoogleSearchFuzzy] []
      = CompileResultT.err CompileError.UnsupportedFeatureSet ∧
    compile [] CompileTarget.UBlackList
        [GenerateTargetPlatform.GoogleSearchPfx, GenerateTargetPlatform.GoogleSearchFuzzy] []
      ≠ CompileResultT.usageExit := by
  constructor
  · decide
  · decide

/-- C4 amended: with both Google flags present, the run never writes,
creates, or truncates the output file and the output path's state is
unchanged; when the target is uBlock Origin the run ends in the
process-terminating usage exit (code 1), while for any other target the
typed `UnsupportedFeatureSet` error is returned first. -/
theorem google_flags_conflict_amended (parse : String → Except String (List Entry))
    (fs : FsState) (target : CompileTarget)
    (feature_flags : List GenerateTargetPlatform)
    (header_attributes : List HeaderAttribute)
    (h1 : GenerateTargetPlatform.GoogleSearchPfx ∈ feature_flags)
    (h2 : GenerateTargetPlatform.GoogleSearchFuzzy ∈ feature_flags) :
    (compileRun parse fs target feature_flags header_attributes).fs.output = fs.output ∧
    (compileRun parse fs target feature_flags header_attributes).trace.openedOutput = false ∧
    (target = CompileTarget.UBlockOrigin →
      (compileRun parse fs target feature_flags header_attributes).result
        = RunResult.exited 1) ∧
    (target ≠ CompileTarget.UBlockOrigin →
      (compileRun parse fs target feature_flags header_attributes).result
        = RunResult.normal (Except.error CompileError.UnsupportedFeatureSet)) := by
  have hne : feature_flags.isEmpty = false := by
    simp [List.isEmpty_eq_false]
    intro h
    rw [h] at h1
    cases h1
  have hc1 : feature_flags.contains GenerateTargetPlatform.GoogleSearchPfx = true :=
    (contains_true_iff _ _).mpr h1
  have hc2 : feature_flags.contains GenerateTargetPlatform.GoogleSearchFuzzy = true :=
    (contains_true_iff _ _).mpr h2
  cases target <;> simp [compileRun, hne, hc1, hc2, h1, h2]

/-- Witness for the amended C4 at concrete inputs, exercising both the
uBlock Origin usage-exit clause and the other-target typed-error
clause. -/
theorem google_flags_conflict_amended_witness :
    (compileRun (fun _ => Except.error "parse") ⟨Except.error "missing", none⟩
        CompileTarget.UBlockOrigin
        [GenerateTargetPlatform.GoogleSearchPfx, GenerateTargetPlatform.GoogleSearchFuzzy]
        []).fs.output = none ∧
    (compileRun (fun _ => Except.error "parse") ⟨Except.error "missing", none⟩
        CompileTarget.UBlockOrigin
        [GenerateTargetPlatform.GoogleSearchPfx, GenerateTargetPlatform.GoogleSearchFuzzy]
        []).trace.openedOutput = false ∧
    (compileRun (fun _ => Except.error "parse") ⟨Except.error "missing", none⟩
        CompileTarget.UBlockOrigin
        [GenerateTargetPlatform.GoogleSearchPfx, GenerateTargetPlatform.GoogleSearchFuzzy]
        []).result = RunResult.exited 1 ∧
    (compileRun (fun _ => Except.error "parse") ⟨Except.error "missing", none⟩
        CompileTarget.UBlackList
        [GenerateTargetPlatform.GoogleSearchPfx, GenerateTargetPlatform.GoogleSearchFuzzy]
        []).result = RunResult.normal (Except.error CompileError.UnsupportedFeatureSet) := by
  have h := google_flags_conflict_amended (fun _ => Except.error "parse")
    ⟨Except.error "missing", none⟩ CompileTarget.UBlockOrigin
    [GenerateTargetPlatform.GoogleSearchPfx, GenerateTargetPlatform.GoogleSearchFuzzy]
    [] (by decide) (by decide)
  have h2 := google_flags_conflict_amended (fun _ => Except.error "parse")
    ⟨Except.error "missing", none⟩ CompileTarget.UBlackList
    [GenerateTargetPlatform.GoogleSearchPfx, GenerateTargetPlatform.GoogleSearchFuzzy]
    [] (by decide) (by decide)
  exact ⟨h.1, h.2.1, h.2.2.1 rfl, h2.2.2.2 (by decide)⟩

/-- C5: compiling with an empty feature-flag set succeeds with the empty
text, for every entry list, target, and header set. -/
theorem empty_flag_short_circuit (list : List Entry) (target : CompileTarget)
    (header_attributes : List HeaderAttribute) :
    compile list target [] header_attributes = CompileResultT.ok "" := by
  simp [compile]

/-- C6: when a nonempty flag set compiles successfully, the output is the
header block, then the Base block exactly when the Base flag is present,
then the Google block exactly when a Google flag is present, with no
extra separator; and compiling depends on the flag list only through
membership, so any two flag lists with the same members (in particular
any permutation) compile identically. -/
theorem assembly_and_flag_order (list : List Entry) (target : CompileTarget)
    (header_attributes : List HeaderAttribute)
    (feature_flags feature_flags₂ : List GenerateTargetPlatform)
    (hne : feature_flags ≠ []) :
    (∀ t, compile list target feature_flags header_attributes = CompileResultT.ok t →
      t = header target header_attributes
        ++ ((if feature_flags.contains GenerateTargetPlatform.Base = true
              then entrySerialize target list else "")
          ++ (if (feature_flags.contains GenerateTargetPlatform.GoogleSearchPfx
                || feature_flags.contains GenerateTargetPlatform.GoogleSearchFuzzy) = true
              then googleBlock
                (feature_flags.contains GenerateTargetPlatform.GoogleSearchPfx) list
              else ""))) ∧
    ((∀ f, f ∈ feature_flags ↔ f ∈ feature_flags₂) →
      compile list target feature_flags header_attributes
        = compile list target feature_flags₂ header_attributes) := by
  constructor
  · intro t hok
    exact (compile_ok_eq list target feature_flags header_attributes t hne hok).trans
      (assembleText_eq list target feature_flags header_attributes)
  · intro hm
    have h0 : feature_flags.isEmpty = feature_flags₂.isEmpty := by
      rw [Bool.eq_iff_iff, List.isEmpty_iff, List.isEmpty_iff,
        List.eq_nil_iff_forall_not_mem, List.eq_nil_iff_forall_not_mem]
      constructor <;> intro h a ha
      · exact h a ((hm a).mpr ha)
      · exact h a ((hm a).mp ha)
    have h1 : feature_flags.contains GenerateTargetPlatform.Base
        = feature_flags₂.contains GenerateTargetPlatform.Base := by
      rw [Bool.eq_iff_iff, contains_true_iff, contains_true_iff]
      exact hm _
    have h2 : feature_flags.contains GenerateTargetPlatform.GoogleSearchPfx
        = feature_flags₂.contains GenerateTargetPlatform.GoogleSearchPfx := by
      rw [Bool.eq_iff_iff, contains_true_iff, contains_true_iff]
      exact hm _
    have h3 : feature_flags.contains GenerateTargetPlatform.GoogleSearchFuzzy
        = feature_flags₂.contains GenerateTargetPlatform.GoogleSearchFuzzy := by
      rw [Bool.eq_iff_iff, contains_true_iff, contains_true_iff]
      exact hm _
    simp only [compile, assembleText, h0, h1, h2, h3]

/-- Witness for C6 at concrete inputs. -/
theorem assembly_and_flag_order_witness :
    (compile [Entry.Domain MatchMethod.Literal "x"] CompileTarget.UBlackList
        [GenerateTargetPlatform.Base] [⟨"a", "b"⟩]
      = compile [Entry.Domain MatchMethod.Literal "x"] CompileTarget.UBlackList
        [GenerateTargetPlatform.Base, GenerateTargetPlatform.Base] [⟨"a", "b"⟩]) ∧
    "# a: b\n" ++ "*://x/*\n"
      = header CompileTarget.UBlackList [⟨"a", "b"⟩]
        ++ ((if [GenerateTargetPlatform.Base].contains GenerateTargetPlatform.Base = true
              then entrySerialize CompileTarget.UBlackList
                [Entry.Domain MatchMethod.Literal "x"] else "")
          ++ (if ([GenerateTargetPlatform.Base].contains GenerateTargetPlatform.GoogleSearchPfx
                || [GenerateTargetPlatform.Base].contains GenerateTargetPlatform.GoogleSearchFuzzy)
                = true
              then googleBlock
                ([GenerateTargetPlatform.Base].contains GenerateTargetPlatform.GoogleSearchPfx)
                [Entry.Domain MatchMethod.Literal "x"]
              else "")) := by
  have h := assembly_and_flag_order [Entry.Domain MatchMethod.Literal "x"]
    CompileTarget.UBlackList [⟨"a", "b"⟩] [GenerateTargetPlatform.Base]
    [GenerateTargetPlatform.Base, GenerateTargetPlatform.Base] (by decide)
  exact ⟨h.2 (fun f => by cases f <;> decide), h.1 ("# a: b\n" ++ "*://x/*\n") (by decide)⟩

/-- C7: the header block is one line per attribute in input order, each
line being the comment marker (`#` for uBlackList, `!` for uBlock
Origin), a space, the key, `": "`, the value and a newline; zero
attributes yield the empty block; and for every nonempty flag set, any
successful compile's output starts with the header block. -/
theorem header_emission (list : List Entry) (target : CompileTarget)
    (feature_flags : List GenerateTargetPlatform)
    (header_attributes : List HeaderAttribute)
    (hne : feature_flags ≠ []) :
    header target header_attributes
        = collectString (header_attributes.map fun a =>
            comment target ++ " " ++ a.key ++ ": " ++ a.value ++ "\n") ∧
    comment CompileTarget.UBlackList = "#" ∧
    comment CompileTarget.UBlockOrigin = "!" ∧
    header target [] = "" ∧
    (∀ t, compile list target feature_flags header_attributes = CompileResultT.ok t →
      ∃ rest, t = header target header_attributes ++ rest) := by
  refine ⟨rfl, rfl, rfl, rfl, ?_⟩
  intro t hok
  refine ⟨(if feature_flags.contains GenerateTargetPlatform.Base = true
      then entrySerialize target list else "")
    ++ (if (feature_flags.contains GenerateTargetPlatform.GoogleSearchPfx
          || feature_flags.contains GenerateTargetPlatform.GoogleSearchFuzzy) = true
        then googleBlock (feature_flags.contains GenerateTargetPlatform.GoogleSearchPfx) list
        else ""), ?_⟩
  exact (compile_ok_eq list target feature_flags header_attributes t hne hok).trans
    (assembleText_eq list target feature_flags header_attributes)

/-- Witness for C7 at a concrete input, exhibiting the header line
`"! source: listA\n"`. -/
theorem header_emission_witness :
    ∃ rest, "! source: listA\n"
      = header CompileTarget.UBlockOrigin [⟨"source", "listA"⟩] ++ rest :=
  (header_emission [] CompileTarget.UBlockOrigin [GenerateTargetPlatform.Base]
    [⟨"source", "listA"⟩] (by decide)).2.2.2.2 "! source: listA\n" (by decide)

/-- Helper: split fails exactly when the character does not occur. -/
theorem splitOnceList_eq_none (c : Char) (l : List Char) :
    splitOnceList c l = none ↔ c ∉ l := by
  induction l with
  | nil => simp [splitOnceList]
  | cons x xs ih =>
    by_cases hx : x = c
    · subst hx
      simp [splitOnceList]
    · simp [splitOnceList, hx, Option.map_eq_none', ih]
      intro h
      exact fun he => hx he.symm

/-- Helper: a successful split is at the first occurrence: the key part
contains no separator and the input is key, separator, value. -/
theorem splitOnceList_eq_some (c : Char) (l : List Char) (k v : List Char)
    (h : splitOnceList c l = some (k, v)) : l = k ++ c :: v ∧ c ∉ k := by
  induction l generalizing k v with
  | nil => simp [splitOnceList] at h
  | cons x xs ih =>
    by_cases hx : x = c
    · subst hx
      rw [splitOnceList, if_pos rfl] at h
      injection h with h2
      injection h2 with hk hv
      subst hk
      subst hv
      simp
    · rw [splitOnceList, if_neg hx] at h
      cases hsp : splitOnceList c xs with
      | none =>
        rw [hsp] at h
        simp at h
      | some p =>
        rw [hsp] at h
        simp only [Option.map_some'] at h
        injection h with h2
        injection h2 with hk hv
        subst hk
        subst hv
        obtain ⟨hl, hnk⟩ := ih p.1 p.2 (by rw [hsp])
        constructor
        · rw [hl]
          rfl
        · intro hm
          rcases List.mem_cons.mp hm with hcx | hcp
          · exact hx hcx.symm
          · exact hnk hcp

/-- C8 counterexample: the input `"a=b=c"` contains two `=` characters yet
parses successfully (to key `"a"`, value `"b=c"`), so parsing does not
require exactly one `=` in the input. -/
theorem header_attribute_split_counterexample :
    HeaderAttribute.fromStr "a=b=c" = some ⟨"a", "b=c"⟩ ∧
    ("a=b=c".data.count '=') = 2 := by
  constructor
  · decide
  · decide

/-- C8 amended: parsing requires at least one `=`; an input with no `=`
fails to parse, and a successful parse splits at the first occurrence of
`=` — the key contains no `=` while the value may. -/
theorem header_attribute_split_amended (s : String) :
    (HeaderAttribute.fromStr s = none ↔ '=' ∉ s.data) ∧
    (∀ a : HeaderAttribute, HeaderAttribute.fromStr s = some a →
      s.data = a.key.data ++ '=' :: a.value.data ∧ '=' ∉ a.key.data) := by
  constructor
  · rw [HeaderAttribute.fromStr, Option.map_eq_none']
    exact splitOnceList_eq_none '=' s.data
  · intro a ha
    rw [HeaderAttribute.fromStr] at ha
    cases hsp : splitOnceList '=' s.data with
    | none =>
      rw [hsp] at ha
      simp at ha
    | some p =>
      rw [hsp] at ha
      simp only [Option.map_some'] at ha
      injection ha with h2
      have hkey : a.key = ⟨p.1⟩ := by rw [← h2]
      have hval : a.value = ⟨p.2⟩ := by rw [← h2]
      rw [hkey, hval]
      exact splitOnceList_eq_some '=' s.data p.1 p.2 (by rw [hsp])

/-- Witness for the amended C8 at a concrete input. -/
theorem header_attribute_split_amended_witness :
    "k=v=w".data = ("k" : String).data ++ '=' :: ("v=w" : String).data ∧
    '=' ∉ ("k" : String).data :=
  (header_attribute_split_amended "k=v=w").2 ⟨"k", "v=w"⟩ (by decide)

/-- C9 counterexample: a JSON entry object whose payload string is empty
deserializes successfully, so parsing does not establish the claimed
non-emptiness invariant. -/
theorem entry_payload_counterexample :
    Entry.fromJson (Json.obj
        [("type", Json.str "domain"), ("match", Json.str "literal"),
         ("domain", Json.str "")])
      = some (Entry.Domain MatchMethod.Literal "") ∧
    Entry.payload (Entry.Domain MatchMethod.Literal "") = "" := by
  constructor
  · rfl
  · rfl

/-- C9 amended: parsing accepts any payload string, including the empty
one, and carries it through verbatim; the core performs no escaping or
normalization — the dialect templates embed the payload string verbatim
in the emitted rules. -/
theorem entry_payload_verbatim (s : String) :
    Entry.fromJson (Json.obj
        [("type", Json.str "domain"), ("match", Json.str "literal"),
         ("domain", Json.str s)])
      = some (Entry.Domain MatchMethod.Literal s) ∧
    Entry.fromJson (Json.obj
        [("type", Json.str "path"), ("match", Json.str "literal"),
         ("path", Json.str s)])
      = some (Entry.Path MatchMethod.Literal s) ∧
    Entry.payload (Entry.Domain MatchMethod.Literal s) = s ∧
    entrySerialize CompileTarget.UBlackList [Entry.Domain MatchMethod.Literal s]
      = "*://" ++ s ++ "/*" ++ "\n" ∧
    entrySerialize CompileTarget.UBlockOrigin [Entry.Domain MatchMethod.Literal s]
      = "||" ++ s ++ "^" ++ "\n" ∧
    googleLines false [Entry.Domain MatchMethod.Literal s]
      = ["www.google.*##.g:has(a[href" ++ "*=" ++ "\"" ++ s ++ "\")",
         "www.google.*##.a[href" ++ "*=" ++ "\"" ++ s ++ "\"]:upward(1)"] := by
  refine ⟨rfl, rfl, rfl, ?_, ?_, ?_⟩
  · simp [entrySerialize, collectString, String.append_empty, String.append_assoc]
  · simp [entrySerialize, collectString, String.append_empty, String.append_assoc]
  · simp [googleLines]

/-- C10: with an empty feature-flag set, the run returns success
immediately: the input file is never read or parsed (so a missing,
unreadable, or malformed input cannot fail it), the output file is never
opened, and the file-system state — in particular the output path — is
left exactly as it was. -/
theorem empty_flags_no_io (parse : String → Except String (List Entry))
    (fs : FsState) (target : CompileTarget)
    (header_attributes : List HeaderAttribute) :
    compileRun parse fs target [] header_attributes
      = ⟨RunResult.normal (Except.ok ()), fs, ⟨false, false⟩⟩ := by
  simp [compileRun]

end ExcludeEntry
